import Mathlib

set_option autoImplicit false
set_option maxRecDepth 16384

/-!
Verification of the tokentalk push-to-talk dictation tool.

Go strings are modelled as lists of characters (`Str`); the relevant code
paths only manipulate ASCII text, for which byte-level and character-level
views coincide.  Machine integers are modelled as `Nat` with explicit
truncation (`% 2^32`, `% 2^16`) where the Go code converts between widths.
Fallible operations return `Except`; the `(text, error)` pairs of the
post-processing pipeline are modelled as `Str × Option Str`.
-/

namespace TokenTalk

/-- Go byte strings, restricted to the ASCII fragment the code manipulates. -/
abbrev Str := List Char

/-- Equality of `Except` results is decidable componentwise. -/
instance {ε α : Type} [DecidableEq ε] [DecidableEq α] : DecidableEq (Except ε α)
  | .error e, .error f => decidable_of_iff (e = f) (by simp)
  | .error _, .ok _ => isFalse (by simp)
  | .ok _, .error _ => isFalse (by simp)
  | .ok a, .ok b => decidable_of_iff (a = b) (by simp)

/-- ASCII case folding of one character, mirroring `strings.ToLower` on ASCII. -/
def goToLower (c : Char) : Char :=
  if 65 ≤ c.toNat ∧ c.toNat ≤ 90 then Char.ofNat (c.toNat + 32) else c

/-- ASCII upper-casing of one character, mirroring `strings.ToUpper` on ASCII. -/
def goToUpper (c : Char) : Char :=
  if 97 ≤ c.toNat ∧ c.toNat ≤ 122 then Char.ofNat (c.toNat - 32) else c

/-- Lower-case a whole string (Go `strings.ToLower`, ASCII fragment). -/
def toLowerS (s : Str) : Str := s.map goToLower

/-- Go `unicode.IsSpace` on the ASCII range. -/
def goIsSpace (c : Char) : Bool :=
  c = ' ' || c = '\t' || c = '\n' || c.toNat = 11 || c.toNat = 12 || c.toNat = 13

/-- Go `unicode.IsLetter` on the ASCII range. -/
def goIsLetter (c : Char) : Bool :=
  (65 ≤ c.toNat && c.toNat ≤ 90) || (97 ≤ c.toNat && c.toNat ≤ 122)

/-- Go `unicode.IsDigit` on the ASCII range. -/
def goIsDigit (c : Char) : Bool :=
  48 ≤ c.toNat && c.toNat ≤ 57

/-- Go `unicode.IsPunct` on the ASCII range (the ASCII code points of
Unicode category P). -/
def goIsPunct (c : Char) : Bool :=
  c ∈ ['!', '"', '#', '%', '&', Char.ofNat 39, '(', ')', '*', ',', '-', '.', '/',
        ':', ';', '?', '@', '[', '\\', ']', '_', '\x7b', '\x7d']

/-- Go `strings.TrimSpace` (ASCII fragment). -/
def trimSpaceS (s : Str) : Str :=
  ((s.dropWhile goIsSpace).reverse.dropWhile goIsSpace).reverse

/-- Character of `s` at byte index `i` (Go `s[i]`); only consulted at
in-range indices. -/
def getCh (s : Str) (i : Nat) : Char := s.getD i ' '

/-- Helper for `strings.Index`: first match position of `pat` in `hay`,
counting from `i`. -/
def goIndexAux (hay pat : Str) (i : Nat) : Option Nat :=
  match hay with
  | [] => if pat.isEmpty then some i else none
  | c :: t => if pat.isPrefixOf (c :: t) then some i else goIndexAux t pat (i + 1)

/-- Go `strings.Index(hay[start:], pat)` shifted back to an absolute index
(`none` models the `-1` result). -/
def goIndexFrom (hay pat : Str) (start : Nat) : Option Nat :=
  (goIndexAux (hay.drop start) pat 0).map (· + start)

/-- Embeds `isWordBoundary` from `postprocess/commands.go`: space,
punctuation, or any other non-letter/non-digit character. -/
def isWordBoundary (r : Char) : Bool :=
  goIsSpace r || goIsPunct r || (!goIsLetter r && !goIsDigit r)

/-- One scan step of `replaceWithWordBoundaries` from
`postprocess/commands.go`.  The Go `for` loop is driven by `lastIndex`,
which strictly increases, so `text.length + 1` units of fuel always
suffice; `acc` is the `strings.Builder` content. -/
def rwbLoop (text phrase repl : Str) : Nat → Nat → Str → Str
  | 0, _, acc => acc
  | fuel + 1, lastIndex, acc =>
    match goIndexFrom (toLowerS text) (toLowerS phrase) lastIndex with
    | none => acc ++ text.drop lastIndex
    | some actualIndex =>
      let beforeB := (actualIndex == 0) || isWordBoundary (getCh text (actualIndex - 1))
      let afterIndex := actualIndex + phrase.length
      let afterB := (decide (text.length ≤ afterIndex)) || isWordBoundary (getCh text afterIndex)
      if beforeB && afterB then
        rwbLoop text phrase repl fuel afterIndex
          (acc ++ (text.drop lastIndex).take (actualIndex - lastIndex) ++ repl)
      else
        rwbLoop text phrase repl fuel (actualIndex + 1)
          (acc ++ (text.drop lastIndex).take (actualIndex + 1 - lastIndex))

/-- Embeds `replaceWithWordBoundaries` from `postprocess/commands.go`. -/
def replaceWithWordBoundaries (text phrase repl : Str) : Str :=
  if phrase.isEmpty then text
  else rwbLoop text phrase repl (text.length + 1) 0 []

/-- Embeds `VoiceCommand` from `postprocess/commands.go`. -/
structure VoiceCommand where
  phrase : Str
  replacement : Str
  deriving DecidableEq

/-- Embeds `DefaultVoiceCommands` from `postprocess/commands.go`. -/
def DefaultVoiceCommands : List VoiceCommand :=
  [⟨"new line".toList, "\n".toList⟩,
   ⟨"newline".toList, "\n".toList⟩,
   ⟨"new paragraph".toList, "\n\n".toList⟩,
   ⟨"full stop".toList, ".".toList⟩,
   ⟨"dot".toList, ".".toList⟩,
   ⟨"comma".toList, ",".toList⟩,
   ⟨"question mark".toList, "?".toList⟩,
   ⟨"exclamation mark".toList, "!".toList⟩,
   ⟨"exclamation point".toList, "!".toList⟩,
   ⟨"colon".toList, ":".toList⟩,
   ⟨"semicolon".toList, ";".toList⟩,
   ⟨"open quote".toList, "\"".toList⟩,
   ⟨"close quote".toList, "\"".toList⟩,
   ⟨"open parenthesis".toList, "(".toList⟩,
   ⟨"close parenthesis".toList, ")".toList⟩,
   ⟨"open bracket".toList, "[".toList⟩,
   ⟨"close bracket".toList, "]".toList⟩,
   ⟨"open brace".toList, "\x7b".toList⟩,
   ⟨"close brace".toList, "\x7d".toList⟩,
   ⟨"dash".toList, "-".toList⟩,
   ⟨"underscore".toList, "_".toList⟩,
   ⟨"slash".toList, "/".toList⟩,
   ⟨"backslash".toList, "\\".toList⟩,
   ⟨"at sign space".toList, "@ ".toList⟩,
   ⟨"at sign".toList, "@".toList⟩,
   ⟨"at-sign".toList, "@".toList⟩,
   ⟨"atsign".toList, "@".toList⟩,
   ⟨"hash".toList, "#".toList⟩,
   ⟨"dollar sign".toList, "$".toList⟩,
   ⟨"percent sign".toList, "%".toList⟩,
   ⟨"ampersand".toList, "&".toList⟩,
   ⟨"asterisk".toList, "*".toList⟩,
   ⟨"plus".toList, "+".toList⟩,
   ⟨"equals".toList, "=".toList⟩]

/-- A pipeline stage, Go `Processor`: text in, text out plus optional error. -/
def Processor := Str → Str × Option Str

/-- Capitalized variant of a phrase, Go
`strings.ToUpper(cmd.Phrase[:1]) + cmd.Phrase[1:]`. -/
def capitalizeS : Str → Str
  | [] => []
  | c :: t => goToUpper c :: t

/-- One iteration of the command loop inside `CommandProcessor`. -/
def applyCommand (t : Str) (cmd : VoiceCommand) : Str :=
  let r := replaceWithWordBoundaries t cmd.phrase cmd.replacement
  if 0 < cmd.phrase.length then
    replaceWithWordBoundaries r (capitalizeS cmd.phrase) cmd.replacement
  else r

/-- Embeds `CommandProcessor` from `postprocess/commands.go`. -/
def CommandProcessor (commands : List VoiceCommand) : Processor :=
  fun text => (commands.foldl applyCommand text, none)

/-- Embeds `Pipeline.Process` from `postprocess/pipeline.go`: run the
processors in sequence, returning the current text and the error as soon
as a processor reports one. -/
def processPipeline : List Processor → Str → Str × Option Str
  | [], text => (text, none)
  | proc :: procs, text =>
    match proc text with
    | (result, some e) => (result, some e)
    | (result, none) => processPipeline procs result

/-- Embeds `CodeGenResult` from the code-generation stage. -/
structure CodeGenResult where
  code : Str
  language : Str
  deriving DecidableEq

/-- A code-generation capability, the `Generate` method of `CodeGenProvider`. -/
def CodeGenProvider := Str → Except Str CodeGenResult

/-- Embeds `CodePrefixes`, the voice triggers for code generation mode. -/
def codeTriggers : List Str :=
  ["code block:".toList, "code block".toList, "codeblock:".toList,
   "codeblock".toList, "code:".toList]

/-- Trigger scan inside the detection function: the first trigger that
starts the lowered text wins; the remainder is sliced from the original
text. -/
def detectCodeTriggerAux (text lowerText : Str) : List Str → Str × Bool
  | [] => (text, false)
  | trig :: rest =>
    if trig.isPrefixOf lowerText then (trimSpaceS (text.drop trig.length), true)
    else detectCodeTriggerAux text lowerText rest

/-- Embeds `DetectCodePrefix` (source name) from the code-generation stage:
returns the remaining description and whether a trigger matched. -/
def detectCodeTrigger (text : Str) : Str × Bool :=
  detectCodeTriggerAux text (toLowerS (trimSpaceS text)) codeTriggers

/-- Fenced output of a successful generation,
Go `fmt.Sprintf` of the language-tagged markdown block. -/
def fenceCode (r : CodeGenResult) : Str :=
  "```".toList ++ r.language ++ "\n".toList ++ r.code ++ "\n```".toList

/-- Embeds `CodeGenProcessor`: pass through unless a trigger with a
non-empty description and a provider are present; on provider error return
the original text together with the error. -/
def CodeGenProcessor (provider : Option CodeGenProvider) : Processor :=
  fun text =>
    let d := detectCodeTrigger text
    if d.2 = false then (text, none)
    else
      match provider with
      | none => (text, none)
      | some p =>
        if d.1.isEmpty then (text, none)
        else
          match p d.1 with
          | .error e => (text, some e)
          | .ok result =>
            if result.code.isEmpty then (text, none)
            else (fenceCode result, none)

/-- Embeds `DictionaryEntry` from the dictionary stage. -/
structure DictionaryEntry where
  original : Str
  replacement : Str
  isMapping : Bool
  deriving DecidableEq

/-- Embeds `Dictionary`. -/
structure Dictionary where
  entries : List DictionaryEntry
  deriving DecidableEq

/-- The inner replace-all loop of `DictionaryProcessor`: case-insensitive
search, splice in the stored replacement verbatim, resume after the
replacement.  The loop runs at most `length / |original|` times for a
non-empty source phrase, so `result.length + 1` units of fuel suffice. -/
def dictReplaceLoop (original replacement : Str) : Nat → Nat → Str → Str
  | 0, _, result => result
  | fuel + 1, startPos, result =>
    match goIndexFrom (toLowerS result) (toLowerS original) startPos with
    | none => result
    | some actualIndex =>
      dictReplaceLoop original replacement fuel (actualIndex + replacement.length)
        (result.take actualIndex ++ replacement ++ result.drop (actualIndex + original.length))

/-- One entry of the dictionary fold: only correction mappings rewrite the
text. -/
def applyDictEntry (t : Str) (e : DictionaryEntry) : Str :=
  if e.isMapping then dictReplaceLoop e.original e.replacement (t.length + 1) 0 t
  else t

/-- Embeds `DictionaryProcessor`: apply every correction mapping
case-insensitively, keeping the stored replacement casing. -/
def DictionaryProcessor (dict : Option Dictionary) : Processor :=
  fun text =>
    match dict with
    | none => (text, none)
    | some d => (d.entries.foldl applyDictEntry text, none)

/-- A grammar-correction capability, the `Correct` method of
`GrammarProvider` (context elided; the dictionary rides along as hints). -/
def GrammarCorrect := Str → Option Dictionary → Str × Option Str

/-- Embeds `GrammarProcessor` from `postprocess/grammar.go`: forward to
the provider, or pass through when none is configured. -/
def GrammarProcessor (provider : Option GrammarCorrect) (dict : Option Dictionary) : Processor :=
  fun text =>
    match provider with
    | none => (text, none)
    | some p => p text dict

/-- The fixed stage order of the post-processing pipeline: code
generation, then voice commands, then dictionary, then grammar. -/
def fullPipeline (cp : Option CodeGenProvider) (cmds : List VoiceCommand)
    (dict : Option Dictionary) (gp : Option GrammarCorrect) : List Processor :=
  [CodeGenProcessor cp, CommandProcessor cmds, DictionaryProcessor dict,
   GrammarProcessor gp dict]

/-! ## Audio recorder (pre-initialized variant) -/

/-- Embeds `AudioSegment`; `Data` is the raw byte list, duration in
milliseconds. -/
structure AudioSegment where
  data : List Nat
  sampleRate : Nat
  channels : Nat
  durationMs : Nat
  deriving DecidableEq

/-- The mutable core of `Recorder`: the sample buffer and the recording
flag, both guarded by the mutex in Go. -/
structure RecState where
  buf : List Nat
  recording : Bool
  deriving DecidableEq

/-- Embeds `Recorder.Start`: reject when already recording, otherwise
reset the buffer and raise the flag. -/
def recStart (s : RecState) : Except Str RecState :=
  if s.recording then .error "already recording".toList
  else .ok ⟨[], true⟩

/-- Embeds `Recorder.Stop` of the pre-initialized recorder: error while
idle; on success hand out a copy of the buffered samples (sample rate
16000, mono) and drop the flag.  The elapsed duration is passed in for
`time.Since`.  The buffer itself is left as is. -/
def recStop (durationMs : Nat) (s : RecState) : Except Str AudioSegment × RecState :=
  if s.recording = false then (.error "not recording".toList, s)
  else (.ok ⟨s.buf, 16000, 1, durationMs⟩, ⟨s.buf, false⟩)

/-- Embeds the `onData` device callback of `initDevice`: discard frames
while idle, auto-stop once the elapsed time exceeds the configured
ceiling, otherwise append the frames. -/
def recOnData (maxSeconds elapsedMs : Nat) (input : List Nat) (s : RecState) : RecState :=
  if s.recording = false then s
  else if maxSeconds * 1000 < elapsedMs then ⟨s.buf, false⟩
  else ⟨s.buf ++ input, true⟩

/-! ## WAV container encoding -/

/-- Two bytes, little endian (`binary.Write` of a `uint16`). -/
def u16le (n : Nat) : List Nat := [n % 256, n / 256 % 256]

/-- Four bytes, little endian (`binary.Write` of a `uint32`). -/
def u32le (n : Nat) : List Nat :=
  [n % 256, n / 256 % 256, n / 65536 % 256, n / 16777216 % 256]

/-- Byte values of an ASCII tag string such as `RIFF`. -/
def tagBytes (s : String) : List Nat := s.toList.map Char.toNat

/-- Embeds `AudioSegment.ToWAV`.  The Go arithmetic runs in `uint32` and
truncates to `uint16` for the narrow header fields, hence the explicit
`%` reductions. -/
def toWAV (seg : AudioSegment) : List Nat :=
  let dataSize := seg.data.length % 4294967296
  let blockAlign := seg.channels * 16 % 4294967296 / 8 % 65536
  let byteRate := seg.sampleRate * blockAlign % 4294967296
  tagBytes "RIFF" ++ (u32le ((36 + dataSize) % 4294967296) ++ (tagBytes "WAVE" ++
  (tagBytes "fmt " ++ (u32le 16 ++ (u16le 1 ++ (u16le (seg.channels % 65536) ++
  (u32le (seg.sampleRate % 4294967296) ++ (u32le byteRate ++ (u16le blockAlign ++
  (u16le 16 ++
  (tagBytes "data" ++ (u32le dataSize ++ seg.data))))))))))))

/-- Byte of a byte string at an index, 0 when out of range. -/
def byteAt : List Nat → Nat → Nat
  | [], _ => 0
  | b :: _, 0 => b
  | _ :: t, n + 1 => byteAt t n

/-- Read a little-endian `uint16` out of a byte string. -/
def readU16 (bs : List Nat) (off : Nat) : Nat :=
  byteAt bs off + 256 * byteAt bs (off + 1)

/-- Read a little-endian `uint32` out of a byte string. -/
def readU32 (bs : List Nat) (off : Nat) : Nat :=
  byteAt bs off + 256 * byteAt bs (off + 1) + 65536 * byteAt bs (off + 2) +
    16777216 * byteAt bs (off + 3)

/-- RIFF chunk size field of a WAV byte string. -/
def wavRiffSize (bs : List Nat) : Nat := readU32 bs 4

/-- Audio format field (1 = PCM). -/
def wavAudioFormat (bs : List Nat) : Nat := readU16 bs 20

/-- Channel count field. -/
def wavChannels (bs : List Nat) : Nat := readU16 bs 22

/-- Sample rate field. -/
def wavSampleRate (bs : List Nat) : Nat := readU32 bs 24

/-- Byte rate field. -/
def wavByteRate (bs : List Nat) : Nat := readU32 bs 28

/-- Block align field. -/
def wavBlockAlign (bs : List Nat) : Nat := readU16 bs 32

/-- Bits-per-sample field. -/
def wavBitsPerSample (bs : List Nat) : Nat := readU16 bs 34

/-- Data chunk size field. -/
def wavDataSize (bs : List Nat) : Nat := readU32 bs 40

/-- Sample count recovered from the headers of a 16-bit PCM file: two
bytes per sample. -/
def wavSampleCount (bs : List Nat) : Nat := wavDataSize bs / 2

/-! ## Hotkey combo parsing (`config.ParseHotkey`, `platform.VKCode`) -/

/-- Embeds `config.KeyCombo`. -/
structure KeyCombo where
  ctrl : Bool
  shift : Bool
  alt : Bool
  win : Bool
  key : Str
  deriving DecidableEq

/-- Go `strings.Split` helper carrying the current field (reversed). -/
def goSplitAux (sep : Char) : Str → Str → List Str
  | [], acc => [acc.reverse]
  | c :: t, acc =>
    if c = sep then acc.reverse :: goSplitAux sep t []
    else goSplitAux sep t (c :: acc)

/-- Go `strings.Split` on a single-character separator. -/
def goSplit (s : Str) (sep : Char) : List Str := goSplitAux sep s []

/-- The modifier `switch` of `ParseHotkey`: `some` of the updated combo
when the part names a modifier, `none` otherwise. -/
def applyModifier (kc : KeyCombo) (p : Str) : Option KeyCombo :=
  if p == "ctrl".toList || p == "control".toList then
    some ⟨true, kc.shift, kc.alt, kc.win, kc.key⟩
  else if p == "shift".toList then
    some ⟨kc.ctrl, true, kc.alt, kc.win, kc.key⟩
  else if p == "alt".toList then
    some ⟨kc.ctrl, kc.shift, true, kc.win, kc.key⟩
  else if p == "win".toList || p == "windows".toList then
    some ⟨kc.ctrl, kc.shift, kc.alt, true, kc.key⟩
  else none

/-- Whether a part names a modifier. -/
def isModifierPart (p : Str) : Bool :=
  p == "ctrl".toList || p == "control".toList || p == "shift".toList ||
  p == "alt".toList || p == "win".toList || p == "windows".toList

/-- The part loop of `ParseHotkey`: modifiers accumulate; a non-modifier
is the key only in last position, otherwise an unknown-modifier error. -/
def parseHotkeyLoop (kc : KeyCombo) : List Str → Except Str KeyCombo
  | [] => .ok kc
  | part :: rest =>
    let p := trimSpaceS part
    match applyModifier kc p with
    | some kc' => parseHotkeyLoop kc' rest
    | none =>
      if rest.isEmpty then .ok ⟨kc.ctrl, kc.shift, kc.alt, kc.win, p⟩
      else .error ("unknown modifier: ".toList ++ p)

/-- Embeds `config.ParseHotkey`: lower-case, split on `+`, run the part
loop, then require at least one modifier. -/
def ParseHotkey (combo : Str) : Except Str KeyCombo :=
  let parts := goSplit (toLowerS combo) '+'
  if parts.isEmpty then .error "empty hotkey combo".toList
  else
    match parseHotkeyLoop ⟨false, false, false, false, []⟩ parts with
    | .error e => .error e
    | .ok kc =>
      if kc.ctrl || kc.shift || kc.alt || kc.win then .ok kc
      else .error "no modifiers or key specified in combo".toList

/-- The key-name table of `platform.VKCode`. -/
def vkTable : List (Str × Nat) :=
  [("v".toList, 0x56),
   ("a".toList, 0x41), ("b".toList, 0x42), ("c".toList, 0x43),
   ("d".toList, 0x44), ("e".toList, 0x45), ("f".toList, 0x46),
   ("g".toList, 0x47), ("h".toList, 0x48), ("i".toList, 0x49),
   ("j".toList, 0x4A), ("k".toList, 0x4B), ("l".toList, 0x4C),
   ("m".toList, 0x4D), ("n".toList, 0x4E), ("o".toList, 0x4F),
   ("p".toList, 0x50), ("q".toList, 0x51), ("r".toList, 0x52),
   ("s".toList, 0x53), ("t".toList, 0x54), ("u".toList, 0x55),
   ("w".toList, 0x57), ("x".toList, 0x58), ("y".toList, 0x59),
   ("z".toList, 0x5A),
   ("0".toList, 0x30), ("1".toList, 0x31), ("2".toList, 0x32),
   ("3".toList, 0x33), ("4".toList, 0x34), ("5".toList, 0x35),
   ("6".toList, 0x36), ("7".toList, 0x37), ("8".toList, 0x38),
   ("9".toList, 0x39),
   ("f1".toList, 0x70), ("f2".toList, 0x71), ("f3".toList, 0x72),
   ("f4".toList, 0x73), ("f5".toList, 0x74), ("f6".toList, 0x75),
   ("f7".toList, 0x76), ("f8".toList, 0x77), ("f9".toList, 0x78),
   ("f10".toList, 0x79), ("f11".toList, 0x7A), ("f12".toList, 0x7B),
   ("space".toList, 0x20), ("enter".toList, 0x0D), ("esc".toList, 0x1B),
   ("tab".toList, 0x09), ("backspace".toList, 0x08)]

/-- Embeds `platform.VKCode`: 0 for the empty key (modifier-only combo),
otherwise a table lookup with unknown names as errors. -/
def VKCode (key : Str) : Except Str Nat :=
  if key.isEmpty then .ok 0
  else
    match vkTable.lookup key with
    | some code => .ok code
    | none => .error ("unknown key: ".toList ++ key)

/-! ## Hotkey listener state machine (`platform.WindowsHotkey`) -/

/-- Embeds `platform.KeyCombo`: the VK code of the primary key, 0 for a
modifier-only combo. -/
structure PKeyCombo where
  ctrl : Bool
  shift : Bool
  alt : Bool
  win : Bool
  key : Nat
  deriving DecidableEq

/-- Embeds `Event.Type` (Pressed / Released). -/
inductive HkEvent where
  | pressed
  | released
  deriving DecidableEq

/-- One low-level keyboard message: VK code plus direction. -/
structure KeyMsg where
  vk : Nat
  down : Bool
  deriving DecidableEq

/-- Listener state: the set of physically held keys (what
`GetAsyncKeyState` reports) and the de-duplication flag `pressed`. -/
structure HkState where
  kb : List Nat
  pressedFlag : Bool
  deriving DecidableEq

/-- VK codes of the modifier keys. -/
def vkShift : Nat := 0x10

/-- VK code of Ctrl. -/
def vkCtrl : Nat := 0x11

/-- VK code of Alt. -/
def vkAlt : Nat := 0x12

/-- VK code of the left Windows key. -/
def vkLwin : Nat := 0x5B

/-- VK code of the right Windows key. -/
def vkRwin : Nat := 0x5C

/-- Whether a key is currently down (`isKeyPressed`). -/
def isKeyHeld (kb : List Nat) (vk : Nat) : Bool := kb.contains vk

/-- Record a key press in the keyboard state (idempotent for repeats). -/
def insertKey (kb : List Nat) (vk : Nat) : List Nat :=
  if kb.contains vk then kb else vk :: kb

/-- Record a key release in the keyboard state. -/
def eraseKey (kb : List Nat) (vk : Nat) : List Nat := kb.filter (fun k => k ≠ vk)

/-- Embeds `checkModifiers`: every modifier state must match the combo
exactly; either Windows key satisfies the `win` requirement. -/
def checkModifiers (combo : PKeyCombo) (kb : List Nat) : Bool :=
  (isKeyHeld kb vkCtrl == combo.ctrl) && (isKeyHeld kb vkShift == combo.shift) &&
  (isKeyHeld kb vkAlt == combo.alt) &&
  ((isKeyHeld kb vkLwin || isKeyHeld kb vkRwin) == combo.win)

/-- Whether a VK code is one of the combo's configured modifiers
(the `isOurModifier` test of the modifier-only branch). -/
def isOurModifier (combo : PKeyCombo) (vk : Nat) : Bool :=
  (combo.ctrl && vk == vkCtrl) || (combo.shift && vk == vkShift) ||
  (combo.alt && vk == vkAlt) || (combo.win && (vk == vkLwin || vk == vkRwin))

/-- Embeds `handleKeyEvent`: the keyboard state is updated by the OS for
the incoming message, then the listener classifies it.  Emitted events
are collected in the returned list. -/
def hkStep (combo : PKeyCombo) (s : HkState) (m : KeyMsg) : HkState × List HkEvent :=
  let kb := if m.down then insertKey s.kb m.vk else eraseKey s.kb m.vk
  if combo.key = 0 then
    if isOurModifier combo m.vk = false then (⟨kb, s.pressedFlag⟩, [])
    else if m.down then
      if checkModifiers combo kb then
        if s.pressedFlag = false then (⟨kb, true⟩, [.pressed])
        else (⟨kb, s.pressedFlag⟩, [])
      else (⟨kb, s.pressedFlag⟩, [])
    else
      if s.pressedFlag then (⟨kb, false⟩, [.released])
      else (⟨kb, s.pressedFlag⟩, [])
  else
    if m.vk = combo.key then
      if m.down then
        if checkModifiers combo kb then
          if s.pressedFlag = false then (⟨kb, true⟩, [.pressed])
          else (⟨kb, s.pressedFlag⟩, [])
        else (⟨kb, s.pressedFlag⟩, [])
      else
        if s.pressedFlag then (⟨kb, false⟩, [.released])
        else (⟨kb, s.pressedFlag⟩, [])
    else (⟨kb, s.pressedFlag⟩, [])

/-- Run the listener over a whole message sequence, concatenating the
emitted events. -/
def hkRun (combo : PKeyCombo) : HkState → List KeyMsg → HkState × List HkEvent
  | s, [] => (s, [])
  | s, m :: ms =>
    let r := hkStep combo s m
    let r' := hkRun combo r.1 ms
    (r'.1, r.2 ++ r'.2)

/-! ## Auxiliary predicates and concrete scenario data -/

/-- Whether an `Except` value is a success. -/
def exceptIsOk {ε α : Type} : Except ε α → Bool
  | .ok _ => true
  | .error _ => false

/-- Word-boundary admissibility of an occurrence at index `i`: the
character before (or the string start) and the character after (or the
string end) are boundaries.  These are exactly the two checks of the
replacement scan. -/
def boundaryOkAt (text phrase : Str) (i : Nat) : Bool :=
  ((i == 0) || isWordBoundary (getCh text (i - 1))) &&
  ((decide (text.length ≤ i + phrase.length)) || isWordBoundary (getCh text (i + phrase.length)))

/-- A case-insensitive occurrence of `phrase` at index `i` of `text` that
also respects word boundaries. -/
def boundaryMatchAt (text phrase : Str) (i : Nat) : Prop :=
  (toLowerS phrase).isPrefixOf ((toLowerS text).drop i) = true ∧
    boundaryOkAt text phrase i = true

/-- A code-generation capability that deterministically emits the single
word `comma` as the generated code body. -/
def demoCodeGenProvider : CodeGenProvider := fun _ => .ok ⟨"comma".toList, "".toList⟩

/-- A code-generation capability that always fails. -/
def errCodeGenProvider : CodeGenProvider := fun _ => .error "codegen down".toList

/-- A grammar capability that always fails, returning the input text with
the error, as the concrete providers do on every error path. -/
def errGrammarCorrect : GrammarCorrect := fun t _ => (t, some "provider error".toList)

/-- A recognisable later pipeline stage used to detect whether stages
after a failing one still run. -/
def appendBangStage : Processor := fun t => (t ++ "!".toList, none)

/-- Concrete audio segment used to instantiate the WAV round-trip. -/
def demoSegment : AudioSegment := ⟨[1, 2, 3, 4], 16000, 1, 250⟩

/-- The default hotkey ctrl+shift+v as a platform combo. -/
def hkDemoKeyed : PKeyCombo := ⟨true, true, false, false, 0x56⟩

/-- A modifier-only combo ctrl+win. -/
def hkDemoModOnly : PKeyCombo := ⟨true, false, false, true, 0⟩

/-- Hold scenario for the keyed combo: press ctrl, shift and v, observe
`n` key-repeat down events for v, then release v. -/
def hkKeyedHold (n : Nat) : List KeyMsg :=
  ⟨vkCtrl, true⟩ :: ⟨vkShift, true⟩ :: ⟨0x56, true⟩ ::
    (List.replicate n ⟨0x56, true⟩ ++ [⟨0x56, false⟩])

/-- Hold scenario for the modifier-only combo: press ctrl and the left
Windows key, observe `n` key repeats for the Windows key, then release it. -/
def hkModHold (n : Nat) : List KeyMsg :=
  ⟨vkCtrl, true⟩ :: ⟨vkLwin, true⟩ ::
    (List.replicate n ⟨vkLwin, true⟩ ++ [⟨vkLwin, false⟩])

/-! ## Helper lemmas -/

/-- Folding the dictionary over non-mapping entries leaves the text
untouched. -/
theorem foldl_applyDictEntry_nonmapping :
    ∀ (es : List DictionaryEntry) (t : Str),
      (∀ e ∈ es, e.isMapping = false) → es.foldl applyDictEntry t = t := by
  intro es
  induction es with
  | nil => intro t _; rfl
  | cons e es ih =>
    intro t h
    have he : e.isMapping = false := h e (List.mem_cons_self e es)
    have hstep : applyDictEntry t e = t := by simp [applyDictEntry, he]
    simp only [List.foldl_cons, hstep]
    exact ih t (fun e' he' => h e' (List.mem_cons_of_mem e he'))

/-! ## C10 -/

/-- C10: the dictionary stage performs plain case-insensitive substring
replacement without any word-boundary check.  The mapping `cat -> dog`
rewrites inside the word `concatenate` (both neighbouring characters are
letters), producing `condogenate`; the word-boundary-checked replacement
used by voice commands leaves the same text unchanged. -/
theorem c10_dictionary_inside_word :
    DictionaryProcessor (some ⟨[⟨"cat".toList, "dog".toList, true⟩]⟩) "concatenate".toList
        = ("condogenate".toList, none) ∧
      goIsLetter (getCh "concatenate".toList 2) = true ∧
      goIsLetter (getCh "concatenate".toList 6) = true ∧
      replaceWithWordBoundaries "concatenate".toList "cat".toList "dog".toList
        = "concatenate".toList := by
  decide

/-! ## C8 -/

/-- C8: correction mappings apply case-insensitively with the stored
replacement casing inserted verbatim (`cube control -> kubectl` rewrites
`run Cube Control now` to `run kubectl now`), and a dictionary made only
of simple non-mapping entries never changes the text. -/
theorem c8_dictionary_mappings :
    (DictionaryProcessor (some ⟨[⟨"cube control".toList, "kubectl".toList, true⟩]⟩)
        "run Cube Control now".toList = ("run kubectl now".toList, none)) ∧
      (∀ (d : Dictionary) (t : Str), (∀ e ∈ d.entries, e.isMapping = false) →
        DictionaryProcessor (some d) t = (t, none)) := by
  refine ⟨by decide, ?_⟩
  intro d t h
  simp [DictionaryProcessor, foldl_applyDictEntry_nonmapping d.entries t h]

/-- Witness for C8: a concrete non-mapping dictionary leaves a concrete
text unchanged. -/
theorem c8_witness :
    DictionaryProcessor (some ⟨[⟨[], "Postgres".toList, false⟩]⟩) "hello world".toList
      = ("hello world".toList, none) :=
  c8_dictionary_mappings.2 ⟨[⟨[], "Postgres".toList, false⟩]⟩ "hello world".toList
    (by decide)

/-! ## C2 -/

/-- C2 counterexample: a successful `Stop` does not clear the internal
buffer.  From a recording state with buffered bytes `[7, 8]`, `Stop`
succeeds and returns the samples, yet the recorder's buffer still holds
`[7, 8]` afterwards (the buffer is only reset by the next `Start`). -/
theorem c2_counterexample :
    (recStop 500 ⟨[7, 8], true⟩).1 = .ok ⟨[7, 8], 16000, 1, 500⟩ ∧
      (recStop 500 ⟨[7, 8], true⟩).2.buf = [7, 8] ∧
      [7, 8] ≠ ([] : List Nat) := by
  decide

/-- C2 amended: `Stop` fails exactly when the recorder is idle; on
success it returns the buffered samples as a segment (a value, hence
unaffected by later callback appends) and lowers the recording flag, but
leaves the buffer in place — the buffer is cleared by the next `Start`. -/
theorem c2_stop_behaviour (s : RecState) (d : Nat) :
    exceptIsOk (recStop d s).1 = s.recording ∧
      (s.recording = true →
        recStop d s = (.ok ⟨s.buf, 16000, 1, d⟩, ⟨s.buf, false⟩) ∧
          recStart ⟨s.buf, false⟩ = .ok ⟨[], true⟩) := by
  obtain ⟨buf, rec⟩ := s
  cases rec <;> simp [recStop, recStart, exceptIsOk]

/-- Witness for C2: the amended statement instantiated at a concrete
recording state. -/
theorem c2_witness :
    exceptIsOk (recStop 9 ⟨[1, 2], true⟩).1 = true ∧
      recStop 9 ⟨[1, 2], true⟩ = (.ok ⟨[1, 2], 16000, 1, 9⟩, ⟨[1, 2], false⟩) ∧
      recStart ⟨[1, 2], false⟩ = .ok ⟨[], true⟩ := by
  have h := c2_stop_behaviour ⟨[1, 2], true⟩ 9
  exact ⟨h.1, (h.2 rfl).1, (h.2 rfl).2⟩

/-! ## C9 -/

/-- C9: once the elapsed time exceeds the configured ceiling, the device
callback silently drops the recording flag while keeping the buffered
audio in the internal buffer, and any later `Stop` then fails with the
not-recording error — the buffered audio is never returned to a caller. -/
theorem c9_autostop_loses_audio (maxS elapsed d : Nat) (input : List Nat) (s : RecState)
    (hrec : s.recording = true) (hover : maxS * 1000 < elapsed) :
    recOnData maxS elapsed input s = ⟨s.buf, false⟩ ∧
      recStop d (recOnData maxS elapsed input s) =
        (.error "not recording".toList, ⟨s.buf, false⟩) := by
  have h1 : recOnData maxS elapsed input s = ⟨s.buf, false⟩ := by
    simp [recOnData, hrec, hover]
  exact ⟨h1, by rw [h1]; simp [recStop]⟩

/-- Witness for C9: a one-second ceiling exceeded after two seconds. -/
theorem c9_witness :
    recOnData 1 2000 [9] ⟨[3], true⟩ = ⟨[3], false⟩ ∧
      recStop 7 (recOnData 1 2000 [9] ⟨[3], true⟩) =
        (.error "not recording".toList, ⟨[3], false⟩) :=
  c9_autostop_loses_audio 1 2000 7 [9] ⟨[3], true⟩ rfl (by decide)

/-! ## C4 -/

/-- C4 counterexample: a code-generation provider error does not degrade
to pass-through inside the pipeline.  On `code: insert a comma` with a
failing provider, `Process` returns the prior text together with the
error (not `none`), and the later voice-command stage was skipped: had it
run, it would have rewritten the text, as the third conjunct shows. -/
theorem c4_counterexample :
    processPipeline (fullPipeline (some errCodeGenProvider) DefaultVoiceCommands none none)
        "code: insert a comma".toList
        = ("code: insert a comma".toList, some "codegen down".toList) ∧
      some "codegen down".toList ≠ (none : Option Str) ∧
      (CommandProcessor DefaultVoiceCommands "code: insert a comma".toList).1
        ≠ "code: insert a comma".toList := by
  decide

/-- C4 amended: when the grammar provider (or the code-generation
provider) fails, the failing stage returns its input text unchanged
together with the error, and `Pipeline.Process` stops there: the caller
receives the prior text, but with the error set and without the later
stages having run. -/
theorem c4_error_stops_pipeline :
    (∀ (g : GrammarCorrect) (d : Option Dictionary) (e : Str)
        (rest : List Processor) (t : Str),
      (∀ u, g u d = (u, some e)) →
      processPipeline (GrammarProcessor (some g) d :: rest) t = (t, some e)) ∧
    (∀ (cp : CodeGenProvider) (e : Str) (rest : List Processor) (t desc : Str),
      detectCodeTrigger t = (desc, true) → desc.isEmpty = false →
      cp desc = .error e →
      processPipeline (CodeGenProcessor (some cp) :: rest) t = (t, some e)) := by
  constructor
  · intro g d e rest t hg
    simp [processPipeline, GrammarProcessor, hg t]
  · intro cp e rest t desc hdet hdesc hgen
    simp [processPipeline, CodeGenProcessor, hdet, hdesc, hgen]

/-- Witness for C4: both amended statements instantiated with concrete
always-failing providers and a real later stage. -/
theorem c4_witness :
    processPipeline [GrammarProcessor (some errGrammarCorrect) none, appendBangStage]
        "hi there".toList = ("hi there".toList, some "provider error".toList) ∧
      processPipeline [CodeGenProcessor (some errCodeGenProvider), appendBangStage]
        "code: x".toList = ("code: x".toList, some "codegen down".toList) :=
  ⟨c4_error_stops_pipeline.1 errGrammarCorrect none "provider error".toList
      [appendBangStage] "hi there".toList (fun _ => rfl),
   c4_error_stops_pipeline.2 errCodeGenProvider "codegen down".toList
      [appendBangStage] "code: x".toList "x".toList rfl rfl rfl⟩

/-! ## C1 -/

/-- C1 counterexample: the pipeline stages after code generation do run
on the generated code body.  With a provider producing the code body
`comma`, the code-generation stage outputs the fenced block with body
`comma`, but the full pipeline (codegen, commands, dictionary, grammar)
returns the block with the body rewritten to `,` by voice-command
substitution. -/
theorem c1_counterexample :
    CodeGenProcessor (some demoCodeGenProvider) "code: insert a comma".toList
        = ("```\ncomma\n```".toList, none) ∧
      processPipeline
          (fullPipeline (some demoCodeGenProvider) DefaultVoiceCommands none none)
          "code: insert a comma".toList
        = ("```\n,\n```".toList, none) ∧
      "```\n,\n```".toList ≠ "```\ncomma\n```".toList := by
  decide

/-- C1 amended: on an utterance whose text starts with a code-generation
trigger and a successful generation, the whole utterance is replaced by
the fenced code block before the later stages run, and the voice-command
and dictionary stages are then applied to that block — so they can
substitute inside the generated code body. -/
theorem c1_codegen_then_later_stages (cp : CodeGenProvider) (cmds : List VoiceCommand)
    (dict : Option Dictionary) (t desc : Str) (res : CodeGenResult)
    (hdet : detectCodeTrigger t = (desc, true)) (hdesc : desc.isEmpty = false)
    (hgen : cp desc = .ok res) (hcode : res.code.isEmpty = false) :
    processPipeline (fullPipeline (some cp) cmds dict none) t =
      ((DictionaryProcessor dict (CommandProcessor cmds (fenceCode res)).1).1, none) := by
  cases dict <;>
    simp [fullPipeline, processPipeline, CodeGenProcessor, hdet, hdesc, hgen, hcode,
      CommandProcessor, DictionaryProcessor, GrammarProcessor]

/-- Witness for C1: the amended statement instantiated at the concrete
provider and utterance of the counterexample scenario. -/
theorem c1_witness :
    processPipeline
        (fullPipeline (some demoCodeGenProvider) DefaultVoiceCommands none none)
        "code: insert a comma".toList =
      ((DictionaryProcessor none
          (CommandProcessor DefaultVoiceCommands
            (fenceCode ⟨"comma".toList, "".toList⟩)).1).1, none) :=
  c1_codegen_then_later_stages demoCodeGenProvider DefaultVoiceCommands none
    "code: insert a comma".toList "insert a comma".toList ⟨"comma".toList, "".toList⟩
    rfl rfl rfl rfl

/-! ## C3 -/

/-- Helper: whether the modifier switch fires is exactly the
`isModifierPart` test, independently of the accumulated combo. -/
theorem applyModifier_isSome (kc : KeyCombo) (p : Str) :
    (applyModifier kc p).isSome = isModifierPart p := by
  cases h1 : (p == "ctrl".toList || p == "control".toList) <;>
    cases h2 : (p == "shift".toList) <;>
    cases h3 : (p == "alt".toList) <;>
    cases h4 : (p == "win".toList || p == "windows".toList) <;>
    simp_all [applyModifier, isModifierPart]

/-- Helper: a fired modifier switch leaves a combo with at least one
modifier flag set. -/
theorem applyModifier_some_hasMod {kc kc' : KeyCombo} {p : Str}
    (h : applyModifier kc p = some kc') :
    (kc'.ctrl || kc'.shift || kc'.alt || kc'.win) = true := by
  unfold applyModifier at h
  split at h
  · cases h; simp
  · split at h
    · cases h; simp
    · split at h
      · cases h; simp
      · split at h
        · cases h; simp
        · cases h

/-- Helper: one unfolding of the part loop. -/
theorem parseHotkeyLoop_cons (kc : KeyCombo) (part : Str) (rest : List Str) :
    parseHotkeyLoop kc (part :: rest) =
      match applyModifier kc (trimSpaceS part) with
      | some kc' => parseHotkeyLoop kc' rest
      | none =>
        if rest.isEmpty then
          .ok ⟨kc.ctrl, kc.shift, kc.alt, kc.win, trimSpaceS part⟩
        else .error ("unknown modifier: ".toList ++ trimSpaceS part) := rfl

/-- Helper: the part loop succeeds exactly when every part before the
last names a modifier. -/
theorem parseHotkeyLoop_isOk :
    ∀ (parts : List Str) (kc : KeyCombo),
      exceptIsOk (parseHotkeyLoop kc parts) =
        parts.dropLast.all (fun p => isModifierPart (trimSpaceS p)) := by
  intro parts
  induction parts with
  | nil => intro kc; rfl
  | cons part rest ih =>
    intro kc
    have hiss := applyModifier_isSome kc (trimSpaceS part)
    cases ha : applyModifier kc (trimSpaceS part) with
    | some kc1 =>
      have hp : isModifierPart (trimSpaceS part) = true := by
        rw [ha] at hiss; simpa using hiss.symm
      rw [parseHotkeyLoop_cons, ha]
      show exceptIsOk (parseHotkeyLoop kc1 rest) = _
      cases rest with
      | nil => simp [parseHotkeyLoop, exceptIsOk]
      | cons r rs => simp [List.dropLast, hp, ih]
    | none =>
      have hp : isModifierPart (trimSpaceS part) = false := by
        rw [ha] at hiss; simpa using hiss.symm
      rw [parseHotkeyLoop_cons, ha]
      cases rest with
      | nil => simp [exceptIsOk]
      | cons r rs => simp [List.dropLast, hp, exceptIsOk]

/-- Helper: a successful part loop accumulates exactly the modifiers
named among the parts on top of the incoming flags. -/
theorem parseHotkeyLoop_flags :
    ∀ (parts : List Str) (kc kc' : KeyCombo),
      parseHotkeyLoop kc parts = .ok kc' →
      (kc'.ctrl || kc'.shift || kc'.alt || kc'.win) =
        ((kc.ctrl || kc.shift || kc.alt || kc.win) ||
          parts.any (fun p => isModifierPart (trimSpaceS p))) := by
  intro parts
  induction parts with
  | nil =>
    intro kc kc' h
    cases h; simp
  | cons part rest ih =>
    intro kc kc' h
    have hiss := applyModifier_isSome kc (trimSpaceS part)
    rw [parseHotkeyLoop_cons] at h
    cases ha : applyModifier kc (trimSpaceS part) with
    | some kc1 =>
      rw [ha] at h
      have hp : isModifierPart (trimSpaceS part) = true := by
        rw [ha] at hiss; simpa using hiss.symm
      have h1 := ih kc1 kc' h
      have h2 := applyModifier_some_hasMod ha
      simp [List.any_cons, hp, h1, h2]
    | none =>
      rw [ha] at h
      have hp : isModifierPart (trimSpaceS part) = false := by
        rw [ha] at hiss; simpa using hiss.symm
      cases rest with
      | nil =>
        simp only [List.isEmpty_nil, if_true] at h
        cases h
        simp [List.any_cons, hp]
      | cons r rs => simp at h

/-- Helper: `strings.Split` never yields an empty list. -/
theorem goSplitAux_ne_nil (sep : Char) :
    ∀ (s acc : Str), (goSplitAux sep s acc).isEmpty = false := by
  intro s
  induction s with
  | nil => intro acc; rfl
  | cons c t ih =>
    intro acc
    by_cases hc : c = sep <;> simp [goSplitAux, hc, ih]

/-- C3 counterexample: a combo naming only a recognized primary key and
no modifiers is rejected by `ParseHotkey`, although `VKCode` knows the
key.  The claim's acceptance of modifier-free key-only combos fails. -/
theorem c3_counterexample :
    VKCode "v".toList = .ok 0x56 ∧
      ParseHotkey "v".toList = .error "no modifiers or key specified in combo".toList := by
  decide

/-- C3 amended: `ParseHotkey` accepts a combo string exactly when every
part before the last names a modifier and at least one part names a
modifier — so key-only combos are rejected along with empty ones — and a
non-empty primary key name is a `VKCode` error exactly when it is not in
the key table. -/
theorem c3_parse_characterisation :
    (∀ combo : Str,
      exceptIsOk (ParseHotkey combo) =
        ((goSplit (toLowerS combo) '+').dropLast.all
            (fun p => isModifierPart (trimSpaceS p)) &&
          (goSplit (toLowerS combo) '+').any
            (fun p => isModifierPart (trimSpaceS p)))) ∧
    (∀ k : Str, k ≠ [] → exceptIsOk (VKCode k) = (vkTable.lookup k).isSome) := by
  constructor
  · intro combo
    unfold ParseHotkey
    have hne : (goSplit (toLowerS combo) '+').isEmpty = false :=
      goSplitAux_ne_nil '+' (toLowerS combo) []
    simp only [hne, Bool.false_eq_true, if_false]
    have hok := parseHotkeyLoop_isOk (goSplit (toLowerS combo) '+')
      ⟨false, false, false, false, []⟩
    cases hloop : parseHotkeyLoop ⟨false, false, false, false, []⟩
        (goSplit (toLowerS combo) '+') with
    | error e =>
      rw [hloop] at hok
      simp [exceptIsOk, ← hok]
    | ok kc =>
      rw [hloop] at hok
      have hflags := parseHotkeyLoop_flags _ _ _ hloop
      simp only [Bool.false_or] at hflags
      cases hany : (goSplit (toLowerS combo) '+').any
          (fun p => isModifierPart (trimSpaceS p)) with
      | true =>
        rw [hany] at hflags
        simp [hflags, exceptIsOk, ← hok]
      | false =>
        rw [hany] at hflags
        simp [hflags, exceptIsOk]
  · intro k hk
    have hke : k.isEmpty = false := by
      cases k with
      | nil => exact absurd rfl hk
      | cons c t => rfl
    unfold VKCode
    rw [hke]
    cases h : vkTable.lookup k <;> simp [h, exceptIsOk]

/-- Witness for C3: the `VKCode` conjunct instantiated at a concrete
unknown key name. -/
theorem c3_witness :
    exceptIsOk (VKCode "q9".toList) = (vkTable.lookup "q9".toList).isSome :=
  c3_parse_characterisation.2 "q9".toList (by decide)

/-! ## C5 -/

/-- Helper: from the active state of the keyed demo combo, any number of
key-repeat down events emits nothing, and the final release emits exactly
one Released event. -/
theorem hkKeyedRepeatRun (n : Nat) :
    hkRun hkDemoKeyed ⟨[0x56, vkShift, vkCtrl], true⟩
        (List.replicate n ⟨0x56, true⟩ ++ [⟨0x56, false⟩]) =
      (⟨[vkShift, vkCtrl], false⟩, [.released]) := by
  induction n with
  | zero => rfl
  | succ n ih =>
    have hstep : hkStep hkDemoKeyed ⟨[0x56, vkShift, vkCtrl], true⟩ ⟨0x56, true⟩ =
        (⟨[0x56, vkShift, vkCtrl], true⟩, []) := rfl
    simp [List.replicate_succ, hkRun, hstep, ih]

/-- Helper: from the active state of the modifier-only demo combo, key
repeats of the Windows key emit nothing and its release emits exactly one
Released event. -/
theorem hkModRepeatRun (n : Nat) :
    hkRun hkDemoModOnly ⟨[vkLwin, vkCtrl], true⟩
        (List.replicate n ⟨vkLwin, true⟩ ++ [⟨vkLwin, false⟩]) =
      (⟨[vkCtrl], false⟩, [.released]) := by
  induction n with
  | zero => rfl
  | succ n ih =>
    have hstep : hkStep hkDemoModOnly ⟨[vkLwin, vkCtrl], true⟩ ⟨vkLwin, true⟩ =
        (⟨[vkLwin, vkCtrl], true⟩, []) := rfl
    simp [List.replicate_succ, hkRun, hstep, ih]

/-- C5: holding the configured combination and then releasing it emits
exactly one Pressed event on the Idle-to-Active transition and exactly
one Released event on the Active-to-Idle transition, no matter how many
key-repeat down events arrive during the hold — shown both for the keyed
default combo ctrl+shift+v and for the modifier-only combo ctrl+win. -/
theorem c5_one_pressed_one_released (n : Nat) :
    (hkRun hkDemoKeyed ⟨[], false⟩ (hkKeyedHold n)).2 =
        [HkEvent.pressed, HkEvent.released] ∧
      (hkRun hkDemoModOnly ⟨[], false⟩ (hkModHold n)).2 =
        [HkEvent.pressed, HkEvent.released] := by
  constructor
  · have h1 : hkStep hkDemoKeyed ⟨[], false⟩ ⟨vkCtrl, true⟩ =
        (⟨[vkCtrl], false⟩, []) := rfl
    have h2 : hkStep hkDemoKeyed ⟨[vkCtrl], false⟩ ⟨vkShift, true⟩ =
        (⟨[vkShift, vkCtrl], false⟩, []) := rfl
    have h3 : hkStep hkDemoKeyed ⟨[vkShift, vkCtrl], false⟩ ⟨0x56, true⟩ =
        (⟨[0x56, vkShift, vkCtrl], true⟩, [.pressed]) := rfl
    simp [hkKeyedHold, hkRun, h1, h2, h3, hkKeyedRepeatRun n]
  · have h1 : hkStep hkDemoModOnly ⟨[], false⟩ ⟨vkCtrl, true⟩ =
        (⟨[vkCtrl], false⟩, []) := rfl
    have h2 : hkStep hkDemoModOnly ⟨[vkCtrl], false⟩ ⟨vkLwin, true⟩ =
        (⟨[vkLwin, vkCtrl], true⟩, [.pressed]) := rfl
    simp [hkModHold, hkRun, h1, h2, hkModRepeatRun n]

/-! ## C6 -/

/-- Helper: a hit reported by the index scan is a genuine occurrence at
or after the start position. -/
theorem goIndexAux_some :
    ∀ (hay pat : Str) (j i : Nat), goIndexAux hay pat j = some i →
      j ≤ i ∧ pat.isPrefixOf (hay.drop (i - j)) = true := by
  intro hay
  induction hay with
  | nil =>
    intro pat j i h
    simp only [goIndexAux] at h
    split at h
    next hemp =>
      cases h
      have hp : pat = [] := by simpa [List.isEmpty_iff] using hemp
      exact ⟨Nat.le_refl _, by simp [hp, List.isPrefixOf]⟩
    next => cases h
  | cons c t ih =>
    intro pat j i h
    simp only [goIndexAux] at h
    split at h
    next hpre =>
      cases h
      refine ⟨Nat.le_refl _, ?_⟩
      rw [Nat.sub_self]
      simpa using hpre
    next =>
      obtain ⟨hle, hpre⟩ := ih pat (j + 1) i h
      refine ⟨Nat.le_of_succ_le hle, ?_⟩
      have hij : i - j = (i - (j + 1)) + 1 := by omega
      rw [hij]
      simpa using hpre

/-- Helper: transfer of the index scan result to absolute positions. -/
theorem goIndexFrom_some (hay pat : Str) (s i : Nat)
    (h : goIndexFrom hay pat s = some i) :
    s ≤ i ∧ pat.isPrefixOf (hay.drop i) = true := by
  unfold goIndexFrom at h
  cases haux : goIndexAux (hay.drop s) pat 0 with
  | none => rw [haux] at h; cases h
  | some k =>
    rw [haux] at h
    obtain ⟨-, hpre⟩ := goIndexAux_some (hay.drop s) pat 0 k haux
    have hik : i = k + s := by
      simpa using h.symm
    subst hik
    refine ⟨Nat.le_add_left s k, ?_⟩
    simp only [Nat.sub_zero] at hpre
    rw [List.drop_drop] at hpre
    rw [Nat.add_comm k s]
    exact hpre

/-- Helper: when no occurrence of the phrase respects word boundaries,
the replacement scan reproduces its input: the accumulated prefix plus
the unscanned suffix. -/
theorem rwbLoop_no_match (text phrase repl : Str)
    (hno : ∀ i, ¬ boundaryMatchAt text phrase i) :
    ∀ (fuel lastIndex : Nat) (acc : Str),
      text.length + 1 ≤ fuel + lastIndex →
      rwbLoop text phrase repl fuel lastIndex acc = acc ++ text.drop lastIndex := by
  intro fuel
  induction fuel with
  | zero =>
    intro li acc hle
    have hdrop : text.drop li = [] := List.drop_eq_nil_of_le (by omega)
    simp [rwbLoop, hdrop]
  | succ fuel ih =>
    intro li acc hle
    cases hidx : goIndexFrom (toLowerS text) (toLowerS phrase) li with
    | none => simp [rwbLoop, hidx]
    | some idx =>
      obtain ⟨hli, hpre⟩ := goIndexFrom_some _ _ _ _ hidx
      have hbound : boundaryOkAt text phrase idx = false := by
        cases hb : boundaryOkAt text phrase idx with
        | false => rfl
        | true => exact absurd ⟨hpre, hb⟩ (hno idx)
      have hcond :
          (((idx == 0) || isWordBoundary (getCh text (idx - 1))) &&
            ((decide (text.length ≤ idx + phrase.length)) ||
              isWordBoundary (getCh text (idx + phrase.length)))) = false := hbound
      simp only [rwbLoop, hidx, hcond, Bool.false_eq_true, if_false]
      rw [ih (idx + 1) (acc ++ (text.drop li).take (idx + 1 - li)) (by omega)]
      have hsplit :
          (text.drop li).take (idx + 1 - li) ++ text.drop (idx + 1) = text.drop li := by
        have hdd : text.drop (idx + 1) = (text.drop li).drop (idx + 1 - li) := by
          rw [List.drop_drop]
          congr 1
          omega
        rw [hdd, List.take_append_drop]
      rw [List.append_assoc, hsplit]

/-- C6: voice-command substitution rewrites a phrase only where it
occupies a complete word.  Concretely, `comma` in `I want a comma here`
becomes `,`, while `Use the command prompt` is left unchanged; in
general, a text without any boundary-respecting occurrence of the phrase
is returned untouched by the boundary-checked replacement. -/
theorem c6_word_boundary_commands :
    (CommandProcessor [⟨"comma".toList, ",".toList⟩] "I want a comma here".toList =
        ("I want a , here".toList, none)) ∧
      (CommandProcessor [⟨"comma".toList, ",".toList⟩] "Use the command prompt".toList =
        ("Use the command prompt".toList, none)) ∧
      (∀ (text phrase repl : Str), (∀ i, ¬ boundaryMatchAt text phrase i) →
        replaceWithWordBoundaries text phrase repl = text) := by
  refine ⟨by decide, by decide, ?_⟩
  intro text phrase repl hno
  unfold replaceWithWordBoundaries
  split
  · rfl
  · rw [rwbLoop_no_match text phrase repl hno (text.length + 1) 0 [] (by omega)]
    simp

/-- Witness for C6: the general conjunct applied to a text that contains
no occurrence of the phrase at all. -/
theorem c6_witness :
    replaceWithWordBoundaries "ab".toList "zq".toList "!".toList = "ab".toList := by
  apply c6_word_boundary_commands.2.2
  intro i hi
  obtain ⟨h1, -⟩ := hi
  match i with
  | 0 => exact absurd h1 (by decide)
  | 1 => exact absurd h1 (by decide)
  | n + 2 =>
    have hdrop : (toLowerS "ab".toList).drop (n + 2) = [] := by
      apply List.drop_eq_nil_of_le
      simp [toLowerS]
    rw [hdrop] at h1
    exact absurd h1 (by decide)

/-! ## C7 -/

/-- Helper: recombining the four little-endian bytes of a value below
2^32 restores the value. -/
theorem u32dec (n : Nat) (h : n < 4294967296) :
    n % 256 + 256 * (n / 256 % 256) + 65536 * (n / 65536 % 256) +
      16777216 * (n / 16777216 % 256) = n := by
  omega

/-- C7: parsing back the headers of `ToWAV` output recovers the original
sample count, sample rate and channel count, and the header fields are
exactly the PCM format values: format 1, 16 bits per sample, block align
`channels * 2`, byte rate `sampleRate * blockAlign`, data chunk size the
raw data length and RIFF chunk size 36 more.  The hypotheses are the
`uint32`/`uint16` range conditions under which the Go arithmetic does not
truncate; the recorder only builds segments with `channels = 1`,
`sampleRate = 16000`. -/
theorem c7_wav_roundtrip (seg : AudioSegment)
    (hd : seg.data.length + 36 < 4294967296)
    (hc0 : 0 < seg.channels) (hc : seg.channels * 2 < 65536)
    (hr : seg.sampleRate * (seg.channels * 2) < 4294967296) :
    wavSampleCount (toWAV seg) = seg.data.length / 2 ∧
      wavSampleRate (toWAV seg) = seg.sampleRate ∧
      wavChannels (toWAV seg) = seg.channels ∧
      wavAudioFormat (toWAV seg) = 1 ∧
      wavBitsPerSample (toWAV seg) = 16 ∧
      wavBlockAlign (toWAV seg) = seg.channels * 2 ∧
      wavByteRate (toWAV seg) = seg.sampleRate * (seg.channels * 2) ∧
      wavDataSize (toWAV seg) = seg.data.length ∧
      wavRiffSize (toWAV seg) = 36 + seg.data.length := by
  have hRlt : seg.sampleRate < 4294967296 := by
    have h2 : 2 ≤ seg.channels * 2 := by omega
    have hmul : seg.sampleRate * 2 ≤ seg.sampleRate * (seg.channels * 2) :=
      Nat.mul_le_mul_left seg.sampleRate h2
    omega
  have hds : wavDataSize (toWAV seg) = seg.data.length := by
    have e : wavDataSize (toWAV seg) =
        seg.data.length % 4294967296 % 256 +
          256 * (seg.data.length % 4294967296 / 256 % 256) +
          65536 * (seg.data.length % 4294967296 / 65536 % 256) +
          16777216 * (seg.data.length % 4294967296 / 16777216 % 256) := rfl
    rw [e]; omega
  have hrate : wavSampleRate (toWAV seg) = seg.sampleRate := by
    have e : wavSampleRate (toWAV seg) =
        seg.sampleRate % 4294967296 % 256 +
          256 * (seg.sampleRate % 4294967296 / 256 % 256) +
          65536 * (seg.sampleRate % 4294967296 / 65536 % 256) +
          16777216 * (seg.sampleRate % 4294967296 / 16777216 % 256) := rfl
    rw [e]; omega
  have hch : wavChannels (toWAV seg) = seg.channels := by
    have e : wavChannels (toWAV seg) =
        seg.channels % 65536 % 256 + 256 * (seg.channels % 65536 / 256 % 256) := rfl
    rw [e]; omega
  have hba : wavBlockAlign (toWAV seg) = seg.channels * 2 := by
    have e : wavBlockAlign (toWAV seg) =
        seg.channels * 16 % 4294967296 / 8 % 65536 % 256 +
          256 * (seg.channels * 16 % 4294967296 / 8 % 65536 / 256 % 256) := rfl
    rw [e]; omega
  have hbr : wavByteRate (toWAV seg) = seg.sampleRate * (seg.channels * 2) := by
    have hbae : seg.channels * 16 % 4294967296 / 8 % 65536 = seg.channels * 2 := by
      omega
    have e : wavByteRate (toWAV seg) =
        seg.sampleRate * (seg.channels * 16 % 4294967296 / 8 % 65536) % 4294967296 % 256 +
          256 * (seg.sampleRate * (seg.channels * 16 % 4294967296 / 8 % 65536) %
            4294967296 / 256 % 256) +
          65536 * (seg.sampleRate * (seg.channels * 16 % 4294967296 / 8 % 65536) %
            4294967296 / 65536 % 256) +
          16777216 * (seg.sampleRate * (seg.channels * 16 % 4294967296 / 8 % 65536) %
            4294967296 / 16777216 % 256) := rfl
    rw [e, hbae, Nat.mod_eq_of_lt hr]
    exact u32dec _ hr
  have hriff : wavRiffSize (toWAV seg) = 36 + seg.data.length := by
    have e : wavRiffSize (toWAV seg) =
        (36 + seg.data.length % 4294967296) % 4294967296 % 256 +
          256 * ((36 + seg.data.length % 4294967296) % 4294967296 / 256 % 256) +
          65536 * ((36 + seg.data.length % 4294967296) % 4294967296 / 65536 % 256) +
          16777216 * ((36 + seg.data.length % 4294967296) % 4294967296 / 16777216 % 256) :=
      rfl
    rw [e]; omega
  refine ⟨?_, hrate, hch, rfl, rfl, hba, hbr, hds, hriff⟩
  show wavDataSize (toWAV seg) / 2 = seg.data.length / 2
  rw [hds]

/-- Witness for C7: the round-trip instantiated at a concrete four-byte
mono 16 kHz segment. -/
theorem c7_witness :
    wavSampleCount (toWAV demoSegment) = demoSegment.data.length / 2 ∧
      wavSampleRate (toWAV demoSegment) = demoSegment.sampleRate ∧
      wavChannels (toWAV demoSegment) = demoSegment.channels ∧
      wavAudioFormat (toWAV demoSegment) = 1 ∧
      wavBitsPerSample (toWAV demoSegment) = 16 ∧
      wavBlockAlign (toWAV demoSegment) = demoSegment.channels * 2 ∧
      wavByteRate (toWAV demoSegment) = demoSegment.sampleRate * (demoSegment.channels * 2) ∧
      wavDataSize (toWAV demoSegment) = demoSegment.data.length ∧
      wavRiffSize (toWAV demoSegment) = 36 + demoSegment.data.length :=
  c7_wav_roundtrip demoSegment (by decide) (by decide) (by decide) (by decide)

end TokenTalk
